import Mathlib

/-!
Verification of the batch-alignment, formatting and result-store logic of
`src/main.py` (a CLI front end for a remote emotion-analysis service).
The Python source is shallowly embedded: Python strings are Lean `String`s
manipulated through explicit char-list functions matching Python semantics,
the remote service is an oracle `String → List String → Except Unit ApiResult`,
the file system is a partial map `String → Option String`, and `main` is a
pure function from parsed arguments and this environment to a run outcome,
an I/O trace and the final persisted-store state.
-/

deriving instance DecidableEq for Except

namespace NLU

/-! ### Python string primitives -/

/-- Python `s.split(sep)` for a one-character separator, on char lists. -/
def splitOnChar (c : Char) : List Char → List (List Char)
  | [] => [[]]
  | x :: xs =>
    match splitOnChar c xs with
    | [] => [[]]
    | r :: rs => if x = c then [] :: r :: rs else (x :: r) :: rs

/-- Whitespace characters removed by Python `str.strip()` (ASCII fragment). -/
def isPySpace (c : Char) : Bool :=
  c = ' ' || c = '\t' || c = '\n' || c = '\r' || c = '\x0b' || c = '\x0c'

/-- Python `str.strip()` on a char list. -/
def stripChars (l : List Char) : List Char :=
  ((l.dropWhile isPySpace).reverse.dropWhile isPySpace).reverse

/-- Python `s.strip()`. -/
def pyStrip (s : String) : String := String.mk (stripChars s.data)

/-- Python `s.split("\n")`. -/
def pySplitLines (s : String) : List String :=
  (splitOnChar '\n' s.data).map String.mk

/-- Whether the first character of a line is `#` (Python `l[0] == "#"`;
only consulted when the stripped line is nonempty, so the line is nonempty). -/
def headIsHash : List Char → Bool
  | [] => false
  | c :: _ => c = '#'

/-- Line filter used for both input files, from `main.py` lines 103-105 and
109-113: keep `l` iff `len(l.strip()) > 0 and l[0] != "#"`. -/
def keepLine (l : String) : Bool :=
  decide (0 < (pyStrip l).length) && !headIsHash l.data

/-- The non-blank, non-comment lines of a file's contents, in order. -/
def filteredLines (content : String) : List String :=
  (pySplitLines content).filter keepLine

/-- Target-line parser, from `main.py` line 110:
`[t.strip() for t in ts.split(",") if len(t.strip()) > 0]`. -/
def parseTargets (line : String) : List String :=
  ((splitOnChar ',' line.data).map (fun t => String.mk (stripChars t))).filter
    (fun t => decide (0 < t.length))

/-- Python `s.ljust(w)` (pad on the right with spaces up to width `w`). -/
def ljust (s : String) (w : Nat) : String :=
  s ++ String.mk (List.replicate (w - s.length) ' ')

/-- Python `sep.join(parts)`. -/
def joinSep (sep : String) : List String → String
  | [] => ""
  | [x] => x
  | x :: xs => x ++ sep ++ joinSep sep xs

/-! ### Decimal formatting of scores

Emotion scores are floating-point numbers returned by the remote service;
they are modelled as exact fractions `num / den`.  Python's `f"{x:.3f}"`
is modelled as rounding the value to a whole number of thousandths
(round half up) and printing it with exactly three digits after the dot. -/

/-- A score value `num / den` as delivered by the remote service. -/
structure PyFloat where
  num : Int
  den : Nat
deriving DecidableEq, Repr

/-- The decimal digit character for `n < 10`. -/
def digitChar (n : Nat) : Char := Char.ofNat (48 + n)

/-- Decimal digits of `n`, most significant first, prepended to `acc`;
`fuel` bounds the recursion depth (any `fuel > log10 n` is enough). -/
def natToDecAux : Nat → Nat → List Char → List Char
  | 0, _, acc => acc
  | fuel+1, n, acc =>
    let acc' := digitChar (n % 10) :: acc
    if n < 10 then acc' else natToDecAux fuel (n / 10) acc'

/-- Decimal rendering of a natural number. -/
def natToDec (n : Nat) : String := String.mk (natToDecAux (n+1) n [])

/-- Render `n < 1000` as exactly three digits (the fractional part). -/
def pad3 (n : Nat) : String :=
  if n < 10 then "00" ++ natToDec n
  else if n < 100 then "0" ++ natToDec n
  else natToDec n

/-- Python `f"{x:.3f}"`: the value rounded to thousandths, with exactly
three digits after the decimal point. -/
def format3 (x : PyFloat) : String :=
  let m : Int := Int.fdiv (2000 * x.num + x.den) (2 * x.den)
  if m < 0 then "-" ++ natToDec ((-m).toNat / 1000) ++ "." ++ pad3 ((-m).toNat % 1000)
  else natToDec (m.toNat / 1000) ++ "." ++ pad3 (m.toNat % 1000)

/-! ### Data model -/

/-- The fixed emotion vocabulary, `EMOTIONS` in `main.py` line 12. -/
def EMOTIONS : List String := ["joy", "sadness", "anger", "fear", "disgust"]

/-- Scores for the five fixed emotions (the value of an `emotion` mapping
in an API response). -/
structure EmotionScores where
  joy : PyFloat
  sadness : PyFloat
  anger : PyFloat
  fear : PyFloat
  disgust : PyFloat
deriving DecidableEq, Repr

/-- Dictionary access `scores[e]` for an emotion name `e`. -/
def EmotionScores.lookup (s : EmotionScores) (e : String) : PyFloat :=
  if e = "joy" then s.joy
  else if e = "sadness" then s.sadness
  else if e = "anger" then s.anger
  else if e = "fear" then s.fear
  else if e = "disgust" then s.disgust
  else ⟨0, 1⟩

/-- One entry of `res["emotion"]["targets"]`: a target text with its scores. -/
structure TargetEmotion where
  text : String
  emotion : EmotionScores
deriving DecidableEq, Repr

/-- The payload returned by `model.analyze(...).get_result()`: keys
`language`, `usage` (`text_units`, `text_characters`) and `emotion`
(`document` scores plus per-target scores). -/
structure ApiResult where
  language : String
  text_units : Nat
  text_characters : Nat
  document : EmotionScores
  targets : List TargetEmotion
deriving DecidableEq, Repr

/-- The dictionary returned by `analyse`: the API payload with the extra
key `"text"` set to the input text (`main.py` line 211). -/
structure AnalysisResult where
  api : ApiResult
  text : String
deriving DecidableEq, Repr

/-- A `datetime.now()` value, identified by its `str(...)` coercion. -/
structure PyDateTime where
  asString : String
deriving DecidableEq, Repr

/-- The in-memory `results` dictionary of one run: `date` and `batch`
(`main.py` lines 130-132). -/
structure BatchRecord where
  date : PyDateTime
  batch : List AnalysisResult
deriving DecidableEq, Repr

/-- A batch record as persisted by `json.dump(..., default=str)`: the
`date` field is string-coerced, everything else is unchanged. -/
structure StoredBatch where
  date : String
  batch : List AnalysisResult
deriving DecidableEq, Repr

/-- String-coercion applied by `json.dump(past, f, default=str)`. -/
def storedOf (r : BatchRecord) : StoredBatch := ⟨r.date.asString, r.batch⟩

/-- The state of the `out.json` file: either contents that `json.load`
rejects (including a missing file), or a parsed array of prior batches. -/
inductive StoreFile where
  | invalid (raw : String)
  | valid (records : List StoredBatch)
deriving DecidableEq, Repr

/-! ### Arguments and environment -/

/-- The parsed command-line arguments (`args` after `parser.parse_args()`).
`none` is Python `None`; argparse group exclusivity is assumed by the
theorems that need it, not baked into the type. -/
structure Args where
  text : Option String
  file : Option String
  targets : Option (List String)
  targets_file : Option String
  no_save : Bool
  verbose : Bool
  quiet : Bool
deriving DecidableEq, Repr

/-- Python truthiness of an optional string (`None` and `""` are falsy). -/
def strTruthy : Option String → Bool
  | none => false
  | some s => s != ""

/-- Python truthiness of an optional list (`None` and `[]` are falsy). -/
def listTruthy : Option (List String) → Bool
  | none => false
  | some l => !l.isEmpty

/-- The external world of one run: file system, remote service, current
`out.json` state and clock. A remote-call failure (`ServiceError`) carries
no information, matching the opaque `ApiException`. -/
structure Env where
  fileContents : String → Option String
  oracle : String → List String → Except Unit ApiResult
  store : StoreFile
  now : PyDateTime

/-- Failures during input loading. -/
inductive LoadErr where
  | fileMissing
  | misaligned
deriving DecidableEq, Repr

/-- The filter-loop of `main.py` lines 121-124: for each aligned pair,
keep it when `len(r_text_inp[i].strip()) >= 1`. -/
def alignKeep : List (String × List String) → List String × List (List String)
  | [] => ([], [])
  | (t, ts) :: rest =>
    let r := alignKeep rest
    if 1 ≤ (pyStrip t).length then (t :: r.1, ts :: r.2) else r

/-- Input loading, `main.py` lines 92-124: produces the parallel lists
`text_inp` and `targ_inp`, together with the list of files opened. -/
def loadInputs (args : Args) (fs : String → Option String) :
    List String × Except LoadErr (List String × List (List String)) :=
  if strTruthy args.text then
    ([], .ok ([args.text.getD ""],
      if listTruthy args.targets then [args.targets.getD []] else []))
  else if strTruthy args.file then
    let f := args.file.getD ""
    match fs f with
    | none => ([f], .error .fileMissing)
    | some tc =>
      if strTruthy args.targets_file then
        let s := args.targets_file.getD ""
        match fs s with
        | none => ([f, s], .error .fileMissing)
        | some sc =>
          let rText := filteredLines tc
          let rTarg := (filteredLines sc).map parseTargets
          if rText.length ≠ rTarg.length then ([f, s], .error .misaligned)
          else ([f, s], .ok (alignKeep (rText.zip rTarg)))
      else ([f], .ok ([], []))
  else ([], .ok ([], []))

/-- The `analyse` function (`main.py` lines 154-213) with printing elided:
one remote call; on success the response dictionary gains `"text"`. -/
def analyse (text : String) (targets : List String)
    (oracle : String → List String → Except Unit ApiResult) :
    Except Unit AnalysisResult :=
  match oracle text targets with
  | .error e => .error e
  | .ok r => .ok ⟨r, text⟩

/-- The batch loop of `main.py` lines 137-139: sequential calls, aborting
at the first failure. Returns the calls actually made (in order, the
failing call included) and either the collected batch or the failure. -/
def runBatch (oracle : String → List String → Except Unit ApiResult) :
    List (String × List String) →
      List (String × List String) × Except Unit (List AnalysisResult)
  | [] => ([], .ok [])
  | (t, ts) :: rest =>
    match analyse t ts oracle with
    | .error e => ([(t, ts)], .error e)
    | .ok r =>
      let tail := runBatch oracle rest
      ((t, ts) :: tail.1,
        match tail.2 with
        | .error e => .error e
        | .ok rs => .ok (r :: rs))

/-- How a run terminates. `usageError` carries the printed lines and
corresponds to `parser.print_usage()` plus `print(...)` plus
`raise SystemExit()`; the other error outcomes are uncaught exceptions. -/
inductive Outcome where
  | usageError (printed : List String)
  | fileError
  | alignmentError
  | serviceError
  | storeError (record : BatchRecord)
  | success (record : BatchRecord)
deriving DecidableEq, Repr

/-- Observable side effects of a run: files opened for reading, whether the
API client was initialised (`init_model`), the remote calls made, and
whether `out.json` was read or written. -/
structure Trace where
  filesOpened : List String
  clientInit : Bool
  apiCalls : List (String × List String)
  storeRead : Bool
  storeWritten : Bool
deriving DecidableEq, Repr

/-- The empty trace: no I/O at all. -/
def Trace.empty : Trace := ⟨[], false, [], false, false⟩

/-- Everything a run leaves behind. -/
structure RunResult where
  outcome : Outcome
  trace : Trace
  finalStore : StoreFile
deriving Repr

/-- Modelled from the spec: the usage line printed by `parser.print_usage()`
is generated by the external argparse library; only its presence and
position matter to the claims. -/
def usageLine : String :=
  "usage: main.py [-h] (-i TEXT | -f FILE) (-t TARGETS [TARGETS ...] | -s TARGETS_FILE) [-n] [-v] [-q]"

/-- The error message of `main.py` line 81 (with `parser.prog = "main.py"`). -/
def errTargetsFileWithInput : String :=
  "main.py: error: cannot use -s/--targets-file with -i/--input. Use -t/--targets instead."

/-- The error message of `main.py` line 87. -/
def errTargetsWithFile : String :=
  "main.py: error: cannot use -t/--targets with -f/--file. Use -s/--targets-file instead."

/-- The `main` function of `main.py` lines 41-151 as a pure function of the
parsed arguments and the environment. -/
def main (args : Args) (env : Env) : RunResult :=
  if strTruthy args.text && strTruthy args.targets_file then
    { outcome := .usageError [usageLine, errTargetsFileWithInput]
      trace := Trace.empty
      finalStore := env.store }
  else if strTruthy args.file && listTruthy args.targets then
    { outcome := .usageError [usageLine, errTargetsWithFile]
      trace := Trace.empty
      finalStore := env.store }
  else
    match loadInputs args env.fileContents with
    | (opened, .error .fileMissing) =>
      { outcome := .fileError
        trace := { Trace.empty with filesOpened := opened }
        finalStore := env.store }
    | (opened, .error .misaligned) =>
      { outcome := .alignmentError
        trace := { Trace.empty with filesOpened := opened }
        finalStore := env.store }
    | (opened, .ok (texts, targs)) =>
      let run := runBatch env.oracle (texts.zip targs)
      match run.2 with
      | .error _ =>
        { outcome := .serviceError
          trace := ⟨opened, true, run.1, false, false⟩
          finalStore := env.store }
      | .ok batch =>
        let record : BatchRecord := ⟨env.now, batch⟩
        if args.no_save then
          { outcome := .success record
            trace := ⟨opened, true, run.1, false, false⟩
            finalStore := env.store }
        else
          match env.store with
          | .invalid raw =>
            { outcome := .storeError record
              trace := ⟨opened, true, run.1, true, false⟩
              finalStore := .invalid raw }
          | .valid recs =>
            { outcome := .success record
              trace := ⟨opened, true, run.1, true, true⟩
              finalStore := .valid (recs ++ [storedOf record]) }

/-- Process exit status of each outcome. `raise SystemExit()` with no
argument exits with status 0; an uncaught exception exits with status 1. -/
def exitCode : Outcome → Nat
  | .usageError _ => 0
  | .fileError => 1
  | .alignmentError => 1
  | .serviceError => 1
  | .storeError _ => 1
  | .success _ => 0

/-- The in-memory batch record an outcome carries, if it reached one. -/
def outcomeRecord : Outcome → Option BatchRecord
  | .storeError r => some r
  | .success r => some r
  | _ => none

/-! ### Result formatting (`main.py` lines 186-209, the non-quiet table) -/

/-- `col_0_width`: the widest label among the input targets and
`"document"` (`main.py` line 187). -/
def colWidth (targets : List String) : Nat :=
  ((targets ++ ["document"]).map String.length).foldl max 0

/-- The header row (`main.py` line 191). -/
def headerRow (w : Nat) : String :=
  joinSep " | " (ljust "item" w :: EMOTIONS.map (fun e => ljust e 7))

/-- The separator row (`main.py` line 192). -/
def sepRow (w : Nat) : String :=
  joinSep "-|-" (String.mk (List.replicate w '-') ::
    EMOTIONS.map (fun _ => String.mk (List.replicate 7 '-')))

/-- A data row: a label plus one 3-decimal score cell per emotion, in
`EMOTIONS` order (`main.py` lines 193-208). -/
def scoreRow (w : Nat) (label : String) (sc : EmotionScores) : String :=
  joinSep " | " (ljust label w :: EMOTIONS.map (fun e => ljust (format3 (sc.lookup e)) 7))

/-- The table printed for one result in non-quiet mode: header, separator,
the synthetic `document` row, then one row per entry of the response's
target list. -/
def renderTable (targets : List String) (res : ApiResult) : List String :=
  let w := colWidth targets
  headerRow w :: sepRow w :: scoreRow w "document" res.document ::
    res.targets.map (fun t => scoreRow w t.text t.emotion)

/-! ### Test fixtures (concrete data used by witnesses and counterexamples) -/

/-- Document scores of the worked example in the specification. -/
def scoresFix : EmotionScores :=
  ⟨⟨12, 100⟩, ⟨45, 100⟩, ⟨1, 100⟩, ⟨5, 1000⟩, ⟨2, 1000⟩⟩

/-- Per-target scores used by the fixtures. -/
def scoresAux : EmotionScores := ⟨⟨1, 2⟩, ⟨0, 1⟩, ⟨0, 1⟩, ⟨0, 1⟩, ⟨0, 1⟩⟩

/-- A fixed successful API response. -/
def apiFix : ApiResult :=
  ⟨"en", 1, 5, scoresFix, [⟨"refund", scoresAux⟩, ⟨"shipping", scoresAux⟩]⟩

/-- A file system holding a four-line text file (one comment, one blank)
and an aligned targets file. -/
def fsFix : String → Option String := fun p =>
  if p = "in.txt" then some "hello\n# skip\n\nworld"
  else if p = "tg.txt" then some "a, b\n#c\n ,x " else none

/-- A fixed clock value. -/
def nowFix : PyDateTime := ⟨"2022-01-01 00:00:00"⟩

/-- An oracle that always succeeds with `apiFix`. -/
def oracleOk : String → List String → Except Unit ApiResult := fun _ _ => .ok apiFix

/-- A healthy environment: files present, service up, empty valid store. -/
def envFix : Env := ⟨fsFix, oracleOk, .valid [], nowFix⟩

/-- File-mode invocation `-f in.txt -s tg.txt`. -/
def argsFileFix : Args := ⟨none, some "in.txt", none, some "tg.txt", false, false, false⟩

/-- Inline invocation `-i hi -t x`. -/
def argsInlineFix : Args := ⟨some "hi", none, some ["x"], none, false, false, false⟩

/-- Invalid combination `-i hello -s tg.txt`. -/
def argsBadFix : Args := ⟨some "hello", none, none, some "tg.txt", false, false, false⟩

/-- Invocation `-i "" -s tg.txt` (empty inline text). -/
def argsEmptyTextFix : Args := ⟨some "", none, none, some "tg.txt", false, false, false⟩

/-- Inline invocation with `--no-save`. -/
def argsNoSaveFix : Args := ⟨some "hi", none, some ["x"], none, true, false, false⟩

/-- An environment whose two input files have different filtered line
counts (two lines versus one). -/
def envMisFix : Env :=
  ⟨fun p => if p = "in.txt" then some "a\nb"
    else if p = "tg.txt" then some "x" else none, oracleOk, .valid [], nowFix⟩

/-- An environment whose remote service fails on the second text. -/
def envFailFix : Env :=
  ⟨fsFix, fun t _ => if t = "world" then .error () else .ok apiFix, .valid [], nowFix⟩

/-- An environment whose `out.json` is unreadable. -/
def envBadStoreFix : Env := ⟨fsFix, oracleOk, .invalid "oops", nowFix⟩

/-- An environment whose targets file consists of the single line `","`,
which is non-blank and not a comment but contains no nonempty token. -/
def envETFix : Env :=
  ⟨fun p => if p = "in.txt" then some "hello"
    else if p = "tg.txt" then some "," else none, oracleOk, .valid [], nowFix⟩

/-- The batch record produced by `main argsInlineFix envFix`. -/
def recFix : BatchRecord := ⟨nowFix, [⟨apiFix, "hi"⟩]⟩

/-- The target list of the specification's formatting example. -/
def tgFix : List String := ["refund", "shipping"]

/-! ### Helper lemmas -/

theorem listTruthy_some {o : Option (List String)} (h : listTruthy o = true) :
    ∃ l, o = some l ∧ l ≠ [] := by
  cases o with
  | none => simp [listTruthy] at h
  | some l =>
    refine ⟨l, rfl, ?_⟩
    simp only [listTruthy, Bool.not_eq_true'] at h
    simpa [List.isEmpty_iff] using h

theorem mem_filteredLines_strip {l : String} {c : String}
    (h : l ∈ filteredLines c) : 1 ≤ (pyStrip l).length := by
  rw [filteredLines, List.mem_filter] at h
  have := h.2
  rw [keepLine, Bool.and_eq_true, decide_eq_true_iff] at this
  omega

theorem alignKeep_eq (ps : List (String × List String))
    (h : ∀ p ∈ ps, 1 ≤ (pyStrip p.1).length) :
    alignKeep ps = (ps.map Prod.fst, ps.map Prod.snd) := by
  induction ps with
  | nil => rfl
  | cons p rest ih =>
    obtain ⟨t, ts⟩ := p
    have ht : 1 ≤ (pyStrip t).length := h (t, ts) (List.mem_cons_self _ _)
    simp only [alignKeep, ih fun q hq => h q (List.mem_cons_of_mem _ hq), if_pos ht,
      List.map_cons]

theorem runBatch_all_ok (oracle : String → List String → Except Unit ApiResult)
    (ps : List (String × List String))
    (h : ∀ p ∈ ps, ∃ r, oracle p.1 p.2 = .ok r) :
    (runBatch oracle ps).1 = ps ∧
    ∃ batch, (runBatch oracle ps).2 = .ok batch ∧ batch.length = ps.length := by
  induction ps with
  | nil => exact ⟨rfl, [], rfl, rfl⟩
  | cons p rest ih =>
    obtain ⟨t, ts⟩ := p
    obtain ⟨r, hr⟩ := h (t, ts) (List.mem_cons_self _ _)
    obtain ⟨hcalls, batch, hbatch, hlen⟩ := ih fun q hq => h q (List.mem_cons_of_mem _ hq)
    refine ⟨?_, ⟨r, t⟩ :: batch, ?_, ?_⟩
    · simp only [runBatch, analyse, hr, hcalls]
    · simp only [runBatch, analyse, hr, hbatch]
    · simp [hlen]

theorem runBatch_ok_inv (oracle : String → List String → Except Unit ApiResult)
    (ps : List (String × List String)) (batch : List AnalysisResult)
    (h : (runBatch oracle ps).2 = .ok batch) :
    batch.length = (runBatch oracle ps).1.length ∧
    ∀ c ∈ (runBatch oracle ps).1, ∃ r, oracle c.1 c.2 = .ok r := by
  induction ps generalizing batch with
  | nil =>
    simp only [runBatch, Except.ok.injEq] at h
    subst h
    exact ⟨rfl, by simp [runBatch]⟩
  | cons p rest ih =>
    obtain ⟨t, ts⟩ := p
    simp only [runBatch, analyse] at h ⊢
    cases hor : oracle t ts with
    | error e => rw [hor] at h; cases h
    | ok r =>
      rw [hor] at h
      cases htail : (runBatch oracle rest).2 with
      | error e => simp only [htail] at h; cases h
      | ok rs =>
        simp only [htail, Except.ok.injEq] at h
        subst h
        obtain ⟨hlen, hall⟩ := ih rs htail
        refine ⟨by simp [hlen], ?_⟩
        intro c hc
        rcases List.mem_cons.mp hc with rfl | hc'
        · exact ⟨r, hor⟩
        · exact hall c hc'

theorem le_foldl_max (l : List Nat) (init : Nat) :
    init ≤ l.foldl max init ∧ ∀ a ∈ l, a ≤ l.foldl max init := by
  induction l generalizing init with
  | nil => exact ⟨Nat.le_refl _, by simp⟩
  | cons x xs ih =>
    obtain ⟨h1, h2⟩ := ih (max init x)
    refine ⟨Nat.le_trans (Nat.le_max_left _ _) h1, ?_⟩
    intro a ha
    rcases List.mem_cons.mp ha with rfl | ha'
    · exact Nat.le_trans (Nat.le_max_right _ _) h1
    · exact h2 a ha'

theorem colWidth_ge (targets : List String) :
    ∀ lbl ∈ "document" :: targets, lbl.length ≤ colWidth targets := by
  intro lbl hlbl
  have hmem : lbl.length ∈ (targets ++ ["document"]).map String.length := by
    rcases List.mem_cons.mp hlbl with rfl | h
    · exact List.mem_map_of_mem _ (by simp)
    · exact List.mem_map_of_mem _ (by simp [h])
  exact (le_foldl_max _ 0).2 _ hmem

theorem ljust_length (s : String) (w : Nat) :
    (ljust s w).length = max s.length w := by
  have h : (String.mk (List.replicate (w - s.length) ' ')).length = w - s.length := by
    rw [String.length_mk, List.length_replicate]
  rw [ljust, String.length_append, h]
  omega

theorem digitChar_ne_dot {n : Nat} (h : n < 10) : digitChar n ≠ '.' := by
  interval_cases n <;> decide

theorem natToDecAux_ne_dot (fuel : Nat) :
    ∀ (n : Nat) (acc : List Char), '.' ∉ acc → '.' ∉ natToDecAux fuel n acc := by
  induction fuel with
  | zero => intro n acc hacc; simpa [natToDecAux] using hacc
  | succ fuel ih =>
    intro n acc hacc
    have hd : '.' ∉ digitChar (n % 10) :: acc := by
      intro hmem
      rcases List.mem_cons.mp hmem with heq | h
      · exact digitChar_ne_dot (Nat.mod_lt _ (by omega)) heq.symm
      · exact hacc h
    simp only [natToDecAux]
    split
    · exact hd
    · exact ih _ _ hd

theorem natToDec_ne_dot (n : Nat) : '.' ∉ (natToDec n).data :=
  natToDecAux_ne_dot (n+1) n [] (by simp)

theorem natToDecAux_small (fuel n : Nat) (acc : List Char)
    (hf : 1 ≤ fuel) (hn : n < 10) :
    natToDecAux fuel n acc = digitChar n :: acc := by
  obtain ⟨m, rfl⟩ : ∃ m, fuel = m + 1 := ⟨fuel - 1, by omega⟩
  simp [natToDecAux, hn, Nat.mod_eq_of_lt hn]

theorem natToDecAux_step (fuel n : Nat) (acc : List Char)
    (hf : 1 ≤ fuel) (hn : ¬ n < 10) :
    natToDecAux fuel n acc = natToDecAux (fuel - 1) (n / 10) (digitChar (n % 10) :: acc) := by
  obtain ⟨m, rfl⟩ : ∃ m, fuel = m + 1 := ⟨fuel - 1, by omega⟩
  simp only [natToDecAux, if_neg hn, Nat.add_sub_cancel]

theorem natToDec_len1 {n : Nat} (h : n < 10) : (natToDec n).length = 1 := by
  rw [natToDec, natToDecAux_small _ _ _ (by omega) h, String.length_mk]
  rfl

theorem natToDec_len2 {n : Nat} (h1 : 10 ≤ n) (h2 : n < 100) :
    (natToDec n).length = 2 := by
  rw [natToDec, natToDecAux_step _ _ _ (by omega) (by omega), Nat.add_sub_cancel,
    natToDecAux_small _ _ _ (by omega) (by omega), String.length_mk]
  rfl

theorem natToDec_len3 {n : Nat} (h1 : 100 ≤ n) (h2 : n < 1000) :
    (natToDec n).length = 3 := by
  rw [natToDec, natToDecAux_step _ _ _ (by omega) (by omega), Nat.add_sub_cancel,
    natToDecAux_step _ _ _ (by omega) (by omega),
    natToDecAux_small _ _ _ (by omega) (by omega), String.length_mk]
  rfl

theorem pad3_length {n : Nat} (h : n < 1000) : (pad3 n).length = 3 := by
  rw [pad3]
  split
  · rw [String.length_append, natToDec_len1 (by omega)]; rfl
  · split
    · rw [String.length_append, natToDec_len2 (by omega) (by omega)]; rfl
    · exact natToDec_len3 (by omega) h

theorem pad3_ne_dot (n : Nat) : '.' ∉ (pad3 n).data := by
  rw [pad3]
  split
  · rw [String.data_append]
    intro hmem
    rcases List.mem_append.mp hmem with h | h
    · simp at h
    · exact natToDec_ne_dot n h
  · split
    · rw [String.data_append]
      intro hmem
      rcases List.mem_append.mp hmem with h | h
      · simp at h
      · exact natToDec_ne_dot n h
    · exact natToDec_ne_dot n

theorem format3_decimals (x : PyFloat) :
    ∃ ip fp, format3 x = ip ++ "." ++ fp ∧ fp.length = 3 ∧
      '.' ∉ ip.data ∧ '.' ∉ fp.data := by
  rw [format3]
  split
  · refine ⟨"-" ++ natToDec ((-(Int.fdiv (2000 * x.num + ↑x.den) (2 * ↑x.den))).toNat / 1000),
      pad3 ((-(Int.fdiv (2000 * x.num + ↑x.den) (2 * ↑x.den))).toNat % 1000), rfl,
      pad3_length (Nat.mod_lt _ (by omega)), ?_, pad3_ne_dot _⟩
    rw [String.data_append]
    intro hmem
    rcases List.mem_append.mp hmem with h | h
    · simp at h
    · exact natToDec_ne_dot _ h
  · exact ⟨natToDec ((Int.fdiv (2000 * x.num + ↑x.den) (2 * ↑x.den)).toNat / 1000),
      pad3 ((Int.fdiv (2000 * x.num + ↑x.den) (2 * ↑x.den)).toNat % 1000), rfl,
      pad3_length (Nat.mod_lt _ (by omega)), natToDec_ne_dot _, pad3_ne_dot _⟩

/-! ### Claims -/

/-- Claim C1, counterexample. The claim asserts a non-zero exit status for
invalid input/target mode combinations, but `main.py` terminates these
paths with `raise SystemExit()` and no argument, which exits with status
0: on the concrete invocation `-i hello -s tg.txt` the usage line and the
specific error message are printed, yet the exit status is 0. -/
theorem usage_error_exit_status_zero :
    (main argsBadFix envFix).outcome = .usageError [usageLine, errTargetsFileWithInput] ∧
    exitCode (main argsBadFix envFix).outcome = 0 := by
  exact ⟨by decide, by decide⟩

/-- Claim C1, amended: for every invocation that supplies inline text
together with a targets-file path, or a file path together with an inline
target list, the program prints the usage line plus a specific error
message and terminates immediately (via `SystemExit` with no code, hence
exit status zero), performing no file or network I/O before terminating. -/
theorem invalid_mode_combination_fails_fast (args : Args) (env : Env)
    (h : (strTruthy args.text = true ∧ strTruthy args.targets_file = true) ∨
      (strTruthy args.file = true ∧ listTruthy args.targets = true)) :
    (∃ msg, (main args env).outcome = .usageError [usageLine, msg] ∧
      (msg = errTargetsFileWithInput ∨ msg = errTargetsWithFile)) ∧
    exitCode (main args env).outcome = 0 ∧
    (main args env).trace = Trace.empty ∧
    (main args env).finalStore = env.store := by
  rcases h with ⟨h1, h2⟩ | ⟨h1, h2⟩
  · have hm : main args env =
        ⟨.usageError [usageLine, errTargetsFileWithInput], Trace.empty, env.store⟩ := by
      simp only [main, h1, h2, Bool.and_self, if_true]
    rw [hm]
    exact ⟨⟨errTargetsFileWithInput, rfl, Or.inl rfl⟩, rfl, rfl, rfl⟩
  · cases hb : (strTruthy args.text && strTruthy args.targets_file) with
    | true =>
      have hm : main args env =
          ⟨.usageError [usageLine, errTargetsFileWithInput], Trace.empty, env.store⟩ := by
        simp only [main, hb, if_true]
      rw [hm]
      exact ⟨⟨errTargetsFileWithInput, rfl, Or.inl rfl⟩, rfl, rfl, rfl⟩
    | false =>
      have hm : main args env =
          ⟨.usageError [usageLine, errTargetsWithFile], Trace.empty, env.store⟩ := by
        simp only [main, hb, h1, h2, Bool.and_self, Bool.false_eq_true, if_false, if_true]
      rw [hm]
      exact ⟨⟨errTargetsWithFile, rfl, Or.inr rfl⟩, rfl, rfl, rfl⟩

/-- Witness for the amended claim C1 at the concrete invocation
`-i hello -s tg.txt`. -/
theorem invalid_mode_combination_fails_fast_witness :
    ((strTruthy argsBadFix.text = true ∧ strTruthy argsBadFix.targets_file = true) ∨
      (strTruthy argsBadFix.file = true ∧ listTruthy argsBadFix.targets = true)) ∧
    ((∃ msg, (main argsBadFix envFix).outcome = .usageError [usageLine, msg] ∧
      (msg = errTargetsFileWithInput ∨ msg = errTargetsWithFile)) ∧
    exitCode (main argsBadFix envFix).outcome = 0 ∧
    (main argsBadFix envFix).trace = Trace.empty ∧
    (main argsBadFix envFix).finalStore = envFix.store) :=
  ⟨Or.inl ⟨by decide, by decide⟩,
    invalid_mode_combination_fails_fast argsBadFix envFix (Or.inl ⟨by decide, by decide⟩)⟩

/-- Claim C2: in a file-mode invocation whose two files have different
filtered (non-blank, non-comment) line counts, the run terminates with the
fatal alignment error, the analysis client is never initialised and no
remote call is made. -/
theorem alignment_mismatch_aborts_before_api (args : Args) (env : Env)
    (f s tc sc : String)
    (h1 : strTruthy args.text = false)
    (h2 : args.file = some f) (h2t : strTruthy args.file = true)
    (h3 : listTruthy args.targets = false)
    (h4 : args.targets_file = some s) (h4t : strTruthy args.targets_file = true)
    (h5 : env.fileContents f = some tc)
    (h6 : env.fileContents s = some sc)
    (h7 : (filteredLines tc).length ≠ (filteredLines sc).length) :
    (main args env).outcome = .alignmentError ∧
    (main args env).trace.clientInit = false ∧
    (main args env).trace.apiCalls = [] := by
  have h2f : strTruthy (some f) = true := h2 ▸ h2t
  have h4s : strTruthy (some s) = true := h4 ▸ h4t
  have hload : loadInputs args env.fileContents = ([f, s], .error .misaligned) := by
    simp only [loadInputs, h1, h2, h2t, h2f, h4, h4t, h4s, h5, h6, Option.getD_some,
      Bool.false_eq_true, if_false, if_true, List.length_map]
    rw [if_pos h7]
  have hm : main args env =
      ⟨.alignmentError, ⟨[f, s], false, [], false, false⟩, env.store⟩ := by
    simp only [main, h1, h3, Bool.false_and, Bool.and_false, Bool.false_eq_true, if_false,
      hload, Trace.empty]
  rw [hm]
  exact ⟨rfl, rfl, rfl⟩

/-- Witness for claim C2: `-f in.txt -s tg.txt` against a file system
where the text file has two filtered lines and the targets file one. -/
theorem alignment_mismatch_aborts_before_api_witness :
    (strTruthy argsFileFix.text = false ∧ argsFileFix.file = some "in.txt" ∧
      strTruthy argsFileFix.file = true ∧ listTruthy argsFileFix.targets = false ∧
      argsFileFix.targets_file = some "tg.txt" ∧ strTruthy argsFileFix.targets_file = true ∧
      envMisFix.fileContents "in.txt" = some "a\nb" ∧
      envMisFix.fileContents "tg.txt" = some "x" ∧
      (filteredLines "a\nb").length ≠ (filteredLines "x").length) ∧
    ((main argsFileFix envMisFix).outcome = .alignmentError ∧
      (main argsFileFix envMisFix).trace.clientInit = false ∧
      (main argsFileFix envMisFix).trace.apiCalls = []) :=
  ⟨⟨by decide, by decide, by decide, by decide, by decide, by decide, by decide, by decide,
      by decide⟩,
    alignment_mismatch_aborts_before_api argsFileFix envMisFix "in.txt" "tg.txt" "a\nb" "x"
      (by decide) (by decide) (by decide) (by decide) (by decide) (by decide) (by decide)
      (by decide) (by decide)⟩

/-- Claim C3: a valid inline invocation (`-i` with `-t`, the targets-file
option absent, the service call succeeding) produces a batch record whose
batch is exactly one `AnalysisResult`, and its `text` field is the
supplied input text verbatim. -/
theorem inline_run_single_result (args : Args) (env : Env) (t : String)
    (ts : List String) (r : ApiResult)
    (h1 : args.text = some t) (h1t : strTruthy args.text = true)
    (h2 : args.targets = some ts) (h2t : listTruthy args.targets = true)
    (h3 : strTruthy args.targets_file = false)
    (h4 : strTruthy args.file = false)
    (h5 : env.oracle t ts = .ok r) :
    ∃ res, outcomeRecord (main args env).outcome = some ⟨env.now, [res]⟩ ∧
      res.text = t := by
  have h1f : strTruthy (some t) = true := h1 ▸ h1t
  have h2l : listTruthy (some ts) = true := h2 ▸ h2t
  have hload : loadInputs args env.fileContents = ([], .ok ([t], [ts])) := by
    simp only [loadInputs, h1t, h1f, if_true, h1, h2, h2t, h2l, Option.getD_some]
  have hzip : [t].zip [ts] = [(t, ts)] := rfl
  have hrun : runBatch env.oracle ([t].zip [ts]) = ([(t, ts)], .ok [⟨r, t⟩]) := by
    rw [hzip]
    simp only [runBatch, analyse, h5]
  simp only [main, h3, h4, Bool.and_false, Bool.false_and, Bool.false_eq_true, if_false,
    hload, hrun]
  split
  · exact ⟨⟨r, t⟩, rfl, rfl⟩
  · split
    · exact ⟨⟨r, t⟩, rfl, rfl⟩
    · exact ⟨⟨r, t⟩, rfl, rfl⟩

/-- Witness for claim C3 at the concrete invocation `-i hi -t x`. -/
theorem inline_run_single_result_witness :
    (argsInlineFix.text = some "hi" ∧ strTruthy argsInlineFix.text = true ∧
      argsInlineFix.targets = some ["x"] ∧ listTruthy argsInlineFix.targets = true ∧
      strTruthy argsInlineFix.targets_file = false ∧ strTruthy argsInlineFix.file = false ∧
      envFix.oracle "hi" ["x"] = .ok apiFix) ∧
    (∃ res, outcomeRecord (main argsInlineFix envFix).outcome = some ⟨envFix.now, [res]⟩ ∧
      res.text = "hi") :=
  ⟨⟨by decide, by decide, by decide, by decide, by decide, by decide, by decide⟩,
    inline_run_single_result argsInlineFix envFix "hi" ["x"] apiFix (by decide) (by decide)
      (by decide) (by decide) (by decide) (by decide) (by decide)⟩

/-- Claim C4: in a file-mode invocation whose filtered line counts match
(and whose remote calls all succeed), the remote calls are made on exactly
the filtered text lines in order, the target list passed with call `k` is
the comma-split, trimmed, non-empty token list of filtered targets line
`k` (the same `filteredLines` filter is applied to both files), and the
produced batch has one analysed item per filtered text line. -/
theorem file_mode_loads_aligned_targets (args : Args) (env : Env)
    (f s tc sc : String)
    (h1 : strTruthy args.text = false)
    (h2 : args.file = some f) (h2t : strTruthy args.file = true)
    (h3 : listTruthy args.targets = false)
    (h4 : args.targets_file = some s) (h4t : strTruthy args.targets_file = true)
    (h5 : env.fileContents f = some tc)
    (h6 : env.fileContents s = some sc)
    (h7 : (filteredLines tc).length = (filteredLines sc).length)
    (h8 : ∀ t ts, ∃ r, env.oracle t ts = .ok r) :
    (main args env).trace.apiCalls.map Prod.fst = filteredLines tc ∧
    (main args env).trace.apiCalls.map Prod.snd = (filteredLines sc).map parseTargets ∧
    ∃ record, outcomeRecord (main args env).outcome = some record ∧
      record.batch.length = (filteredLines tc).length := by
  have h2f : strTruthy (some f) = true := h2 ▸ h2t
  have h4s : strTruthy (some s) = true := h4 ▸ h4t
  have hlen : (filteredLines tc).length = ((filteredLines sc).map parseTargets).length := by
    rw [List.length_map]; exact h7
  have hall : ∀ p ∈ (filteredLines tc).zip ((filteredLines sc).map parseTargets),
      1 ≤ (pyStrip p.1).length := by
    intro p hp
    obtain ⟨a, b⟩ := p
    exact mem_filteredLines_strip (List.of_mem_zip hp).1
  have hload : loadInputs args env.fileContents =
      ([f, s], .ok (filteredLines tc, (filteredLines sc).map parseTargets)) := by
    simp only [loadInputs, h1, h2, h2t, h2f, h4, h4t, h4s, h5, h6, Option.getD_some,
      Bool.false_eq_true, if_false, if_true]
    rw [if_neg (fun hne => hne hlen), alignKeep_eq _ hall,
      List.map_fst_zip _ _ (Nat.le_of_eq hlen), List.map_snd_zip _ _ (Nat.le_of_eq hlen.symm)]
  obtain ⟨hcalls, batch, hbatch, hblen⟩ :=
    runBatch_all_ok env.oracle ((filteredLines tc).zip ((filteredLines sc).map parseTargets))
      (fun p _ => h8 p.1 p.2)
  have hzlen : ((filteredLines tc).zip ((filteredLines sc).map parseTargets)).length =
      (filteredLines tc).length := by
    rw [List.length_zip, ← hlen, Nat.min_self]
  simp only [main, h1, h3, Bool.false_and, Bool.and_false, Bool.false_eq_true, if_false,
    hload, hbatch, hcalls]
  have hfst : ((filteredLines tc).zip ((filteredLines sc).map parseTargets)).map Prod.fst =
      filteredLines tc := List.map_fst_zip _ _ (Nat.le_of_eq hlen)
  have hsnd : ((filteredLines tc).zip ((filteredLines sc).map parseTargets)).map Prod.snd =
      (filteredLines sc).map parseTargets := List.map_snd_zip _ _ (Nat.le_of_eq hlen.symm)
  split
  · exact ⟨hfst, hsnd, ⟨env.now, batch⟩, rfl, hblen.trans hzlen⟩
  · split
    · exact ⟨hfst, hsnd, ⟨env.now, batch⟩, rfl, hblen.trans hzlen⟩
    · exact ⟨hfst, hsnd, ⟨env.now, batch⟩, rfl, hblen.trans hzlen⟩

/-- Witness for claim C4: `-f in.txt -s tg.txt` against `fsFix`, whose
files both have two filtered lines. -/
theorem file_mode_loads_aligned_targets_witness :
    (strTruthy argsFileFix.text = false ∧ argsFileFix.file = some "in.txt" ∧
      strTruthy argsFileFix.file = true ∧ listTruthy argsFileFix.targets = false ∧
      argsFileFix.targets_file = some "tg.txt" ∧ strTruthy argsFileFix.targets_file = true ∧
      envFix.fileContents "in.txt" = some "hello\n# skip\n\nworld" ∧
      envFix.fileContents "tg.txt" = some "a, b\n#c\n ,x " ∧
      (filteredLines "hello\n# skip\n\nworld").length = (filteredLines "a, b\n#c\n ,x ").length ∧
      (∀ t ts, ∃ r, envFix.oracle t ts = .ok r)) ∧
    ((main argsFileFix envFix).trace.apiCalls.map Prod.fst =
        filteredLines "hello\n# skip\n\nworld" ∧
      (main argsFileFix envFix).trace.apiCalls.map Prod.snd =
        (filteredLines "a, b\n#c\n ,x ").map parseTargets ∧
      ∃ record, outcomeRecord (main argsFileFix envFix).outcome = some record ∧
        record.batch.length = (filteredLines "hello\n# skip\n\nworld").length) :=
  ⟨⟨by decide, by decide, by decide, by decide, by decide, by decide, by decide, by decide,
      by decide, fun t ts => ⟨apiFix, rfl⟩⟩,
    file_mode_loads_aligned_targets argsFileFix envFix "in.txt" "tg.txt"
      "hello\n# skip\n\nworld" "a, b\n#c\n ,x " (by decide) (by decide) (by decide)
      (by decide) (by decide) (by decide) (by decide) (by decide) (by decide)
      (fun t ts => ⟨apiFix, rfl⟩)⟩

/-- Claim C5, counterexample. A targets-file line consisting of the single
character `,` is non-blank and not a comment, so it survives the line
filter, yet it parses to an empty target list: the Input Loader produces
the pair `("hello", [])`, whose targets sequence has no entry, and
`analyse` is invoked with that empty list. -/
theorem empty_targets_line_counterexample :
    (loadInputs argsFileFix envETFix.fileContents).2 = .ok (["hello"], [[]]) ∧
    (main argsFileFix envETFix).trace.apiCalls = [("hello", [])] := by
  exact ⟨by decide, by decide⟩

/-- Claim C5, amended: every `InputPair` produced by the Input Loader in
inline mode has a targets sequence with at least one entry (it is the
inline target list, which argparse `nargs="+"` makes nonempty); in file
mode pair `k`'s targets sequence equals the parsed (comma-split, trimmed,
non-empty) token list of filtered targets-file line `k`, and it is empty
exactly when that line contains no nonempty comma-separated token. -/
theorem loader_targets_characterization (args : Args) (fs : String → Option String)
    (texts : List String) (targs : List (List String))
    (hload : (loadInputs args fs).2 = .ok (texts, targs)) :
    (strTruthy args.text = true → ∀ ts ∈ targs, ts ≠ []) ∧
    (∀ f s tc sc, strTruthy args.text = false → args.file = some f →
      strTruthy args.file = true → args.targets_file = some s →
      strTruthy args.targets_file = true → fs f = some tc → fs s = some sc →
      targs = (filteredLines sc).map parseTargets ∧
      ∀ (k : Nat) (line : String), (filteredLines sc)[k]? = some line →
        targs[k]? = some (parseTargets line) ∧
        (targs[k]? = some [] ↔ parseTargets line = [])) := by
  constructor
  · intro hinline ts hts
    simp only [loadInputs, hinline, if_true, Except.ok.injEq, Prod.mk.injEq] at hload
    obtain ⟨-, htargs⟩ := hload
    by_cases hl : listTruthy args.targets = true
    · obtain ⟨l, hsome, hne⟩ := listTruthy_some hl
      rw [if_pos hl] at htargs
      rw [← htargs, hsome] at hts
      simp only [Option.getD_some, List.mem_singleton] at hts
      rwa [hts]
    · rw [if_neg hl] at htargs
      rw [← htargs] at hts
      cases hts
  · intro f s tc sc h1 h2 h2t h4 h4t h5 h6
    have h2f : strTruthy (some f) = true := h2 ▸ h2t
    have h4s : strTruthy (some s) = true := h4 ▸ h4t
    simp only [loadInputs, h1, h2, h2f, h4, h4s, h5, h6, Option.getD_some,
      Bool.false_eq_true, if_false, if_true] at hload
    by_cases hlen : (filteredLines tc).length ≠ ((filteredLines sc).map parseTargets).length
    · rw [if_pos hlen] at hload
      simp at hload
    · rw [if_neg hlen] at hload
      rw [Ne, not_not] at hlen
      have hall : ∀ p ∈ (filteredLines tc).zip ((filteredLines sc).map parseTargets),
          1 ≤ (pyStrip p.1).length := by
        intro p hp
        obtain ⟨a, b⟩ := p
        exact mem_filteredLines_strip (List.of_mem_zip hp).1
      rw [alignKeep_eq _ hall, List.map_fst_zip _ _ (Nat.le_of_eq hlen),
        List.map_snd_zip _ _ (Nat.le_of_eq hlen.symm)] at hload
      simp only [Except.ok.injEq, Prod.mk.injEq] at hload
      obtain ⟨-, htargs⟩ := hload
      subst htargs
      refine ⟨rfl, ?_⟩
      intro k line hline
      rw [List.getElem?_map, hline]
      exact ⟨rfl, by simp⟩

/-- Witness for the amended claim C5: the inline half at `-i hi -t x`, and
the file-mode half at `-f in.txt -s tg.txt` against the environment whose
targets file is the single line `","` (no nonempty token, so the pair's
target list is empty). -/
theorem loader_targets_characterization_witness :
    ((loadInputs argsInlineFix fsFix).2 = .ok (["hi"], [["x"]]) ∧
      strTruthy argsInlineFix.text = true ∧ (∀ ts ∈ [["x"]], ts ≠ [])) ∧
    ((loadInputs argsFileFix envETFix.fileContents).2 = .ok (["hello"], [[]]) ∧
      ([[]] : List (List String)) = (filteredLines ",").map parseTargets ∧
      (filteredLines ",")[0]? = some "," ∧
      (([[]] : List (List String))[0]? = some (parseTargets ",") ∧
        (([[]] : List (List String))[0]? = some [] ↔ parseTargets "," = []))) := by
  refine ⟨⟨by decide, by decide, ?_⟩, by decide, ?_, by decide, ?_⟩
  · exact (loader_targets_characterization argsInlineFix fsFix ["hi"] [["x"]]
      (by decide)).1 (by decide)
  · exact ((loader_targets_characterization argsFileFix envETFix.fileContents ["hello"] [[]]
      (by decide)).2 "in.txt" "tg.txt" "hello" "," (by decide) (by decide) (by decide)
      (by decide) (by decide) (by decide) (by decide)).1
  · exact ((loader_targets_characterization argsFileFix envETFix.fileContents ["hello"] [[]]
      (by decide)).2 "in.txt" "tg.txt" "hello" "," (by decide) (by decide) (by decide)
      (by decide) (by decide) (by decide) (by decide)).2 0 "," (by decide)

/-- Claim C6: when the persisted store is a valid array of `N` prior
records and a run appends its batch (saving enabled, run successful), the
final store is a valid array of `N + 1` records whose first `N` elements
are unchanged and whose last element is the new batch record with its
date field string-coerced. -/
theorem store_append_roundtrip (args : Args) (env : Env) (recs : List StoredBatch)
    (hstore : env.store = .valid recs) (hns : args.no_save = false) :
    ∀ record, (main args env).outcome = .success record →
      ∃ ns, (main args env).finalStore = .valid ns ∧
        ns.length = recs.length + 1 ∧
        ns.take recs.length = recs ∧
        ns.getLast? = some (storedOf record) := by
  simp only [main]
  split
  · exact fun record h => Outcome.noConfusion h
  split
  · exact fun record h => Outcome.noConfusion h
  split
  · exact fun record h => Outcome.noConfusion h
  · exact fun record h => Outcome.noConfusion h
  · split
    · exact fun record h => Outcome.noConfusion h
    · split
      · rename_i hn
        rw [hns] at hn
        cases hn
      · split
        · rename_i heq
          rw [hstore] at heq
          cases heq
        · rename_i recs' heq
          rw [hstore] at heq
          injection heq with heq'
          subst heq'
          intro record h
          injection h with h'
          refine ⟨recs ++ [storedOf record], ?_, by simp, List.take_left _ _,
            List.getLast?_concat _⟩
          rw [h']

/-- Witness for claim C6: `-i hi -t x` against the healthy environment
with an empty valid store appends exactly one record. -/
theorem store_append_roundtrip_witness :
    (envFix.store = .valid [] ∧ argsInlineFix.no_save = false ∧
      (main argsInlineFix envFix).outcome = .success recFix) ∧
    (∃ ns, (main argsInlineFix envFix).finalStore = .valid ns ∧
      ns.length = List.length ([] : List StoredBatch) + 1 ∧
      ns.take (List.length ([] : List StoredBatch)) = [] ∧
      ns.getLast? = some (storedOf recFix)) :=
  ⟨⟨by decide, by decide, by decide⟩,
    store_append_roundtrip argsInlineFix envFix [] (by decide) (by decide) recFix
      (by decide)⟩

/-- Claim C7: with `--no-save`, the persisted store is neither read nor
written, and its contents after the run are identical to its contents
before the run, on every path through `main`. -/
theorem no_save_leaves_store_untouched (args : Args) (env : Env)
    (h : args.no_save = true) :
    (main args env).trace.storeRead = false ∧
    (main args env).trace.storeWritten = false ∧
    (main args env).finalStore = env.store := by
  simp only [main]
  repeat' split
  all_goals first
    | exact ⟨rfl, rfl, rfl⟩
    | simp_all

/-- Witness for claim C7 at `-i hi -t x -n`. -/
theorem no_save_leaves_store_untouched_witness :
    argsNoSaveFix.no_save = true ∧
    ((main argsNoSaveFix envFix).trace.storeRead = false ∧
      (main argsNoSaveFix envFix).trace.storeWritten = false ∧
      (main argsNoSaveFix envFix).finalStore = envFix.store) :=
  ⟨by decide, no_save_leaves_store_untouched argsNoSaveFix envFix (by decide)⟩

/-- Claim C8: when a remote call fails the run ends as `serviceError`,
carrying no batch record, with the store never written and unchanged
(results computed before the failure are discarded); conversely a store
error carries a record with one result per remote call made, every one of
which succeeded — so a store error can only occur after all analysis
calls in the batch have succeeded. -/
theorem failure_atomicity (args : Args) (env : Env) :
    ((main args env).outcome = .serviceError →
      (main args env).trace.storeWritten = false ∧
      (main args env).finalStore = env.store ∧
      outcomeRecord (main args env).outcome = none) ∧
    (∀ record, (main args env).outcome = .storeError record →
      record.batch.length = (main args env).trace.apiCalls.length ∧
      ∀ c ∈ (main args env).trace.apiCalls, ∃ r, env.oracle c.1 c.2 = .ok r) := by
  simp only [main]
  split
  · exact ⟨fun hsvc => Outcome.noConfusion hsvc, fun record hst => Outcome.noConfusion hst⟩
  split
  · exact ⟨fun hsvc => Outcome.noConfusion hsvc, fun record hst => Outcome.noConfusion hst⟩
  split
  · exact ⟨fun hsvc => Outcome.noConfusion hsvc, fun record hst => Outcome.noConfusion hst⟩
  · exact ⟨fun hsvc => Outcome.noConfusion hsvc, fun record hst => Outcome.noConfusion hst⟩
  · split
    · exact ⟨fun _ => ⟨rfl, rfl, rfl⟩, fun record hst => Outcome.noConfusion hst⟩
    · rename_i batch heq
      obtain ⟨hlen, hall⟩ := runBatch_ok_inv _ _ _ heq
      split
      · exact ⟨fun hsvc => Outcome.noConfusion hsvc,
          fun record hst => Outcome.noConfusion hst⟩
      · split
        · refine ⟨fun hsvc => Outcome.noConfusion hsvc, fun record hst => ?_⟩
          injection hst with h'
          rw [← h']
          exact ⟨hlen, hall⟩
        · exact ⟨fun hsvc => Outcome.noConfusion hsvc,
            fun record hst => Outcome.noConfusion hst⟩

/-- Witness for claim C8: the service-failure half at a file-mode run
whose second remote call fails, and the store-error half at an inline run
against a corrupt store. -/
theorem failure_atomicity_witness :
    ((main argsFileFix envFailFix).outcome = .serviceError ∧
      ((main argsFileFix envFailFix).trace.storeWritten = false ∧
        (main argsFileFix envFailFix).finalStore = envFailFix.store ∧
        outcomeRecord (main argsFileFix envFailFix).outcome = none)) ∧
    ((main argsInlineFix envBadStoreFix).outcome = .storeError recFix ∧
      (recFix.batch.length = (main argsInlineFix envBadStoreFix).trace.apiCalls.length ∧
        ∀ c ∈ (main argsInlineFix envBadStoreFix).trace.apiCalls,
          ∃ r, envBadStoreFix.oracle c.1 c.2 = .ok r)) :=
  ⟨⟨by decide, (failure_atomicity argsFileFix envFailFix).1 (by decide)⟩,
    ⟨by decide, (failure_atomicity argsInlineFix envBadStoreFix).2 recFix (by decide)⟩⟩

/-- Claim C9: for every result rendered in non-quiet mode (given that the
response's target texts are the supplied targets, as the remote contract
provides), the table has a header row whose cells are `item` and the five
emotion names, a separator, a synthetic `document` row, then one row per
target; emotion columns are always ordered joy, sadness, anger, fear,
disgust; every first-column cell is padded to the widest row label among
the targets and `document`; and every score is formatted with exactly
three digits after the decimal point. -/
theorem render_table_layout (targets : List String) (res : ApiResult)
    (h : res.targets.map TargetEmotion.text = targets) :
    (renderTable targets res).length = 3 + targets.length ∧
    (renderTable targets res)[0]? = some (joinSep " | "
      (ljust "item" (colWidth targets) ::
        [ljust "joy" 7, ljust "sadness" 7, ljust "anger" 7, ljust "fear" 7,
          ljust "disgust" 7])) ∧
    (renderTable targets res)[2]? = some (joinSep " | "
      (ljust "document" (colWidth targets) ::
        ([res.document.joy, res.document.sadness, res.document.anger,
          res.document.fear, res.document.disgust].map (fun q => ljust (format3 q) 7)))) ∧
    (∀ (k : Nat) (te : TargetEmotion), res.targets[k]? = some te →
      targets[k]? = some te.text ∧
      ((renderTable targets res).drop 3)[k]? = some (joinSep " | "
        (ljust te.text (colWidth targets) ::
          ([te.emotion.joy, te.emotion.sadness, te.emotion.anger, te.emotion.fear,
            te.emotion.disgust].map (fun q => ljust (format3 q) 7))))) ∧
    (∀ lbl ∈ "document" :: targets,
      (ljust lbl (colWidth targets)).length = colWidth targets) ∧
    (∀ x : PyFloat, ∃ ip fp, format3 x = ip ++ "." ++ fp ∧ fp.length = 3 ∧
      '.' ∉ ip.data ∧ '.' ∉ fp.data) := by
  refine ⟨?_, ?_, ?_, ?_, ?_, format3_decimals⟩
  · rw [← h]
    simp only [renderTable, List.length_cons, List.length_map]
    omega
  · rfl
  · simp only [renderTable, List.getElem?_cons_succ, List.getElem?_cons_zero,
      Option.some.injEq]
    simp [scoreRow, EMOTIONS, EmotionScores.lookup]
  · intro k te hte
    constructor
    · rw [← h, List.getElem?_map, hte]
      rfl
    · have hdrop : (renderTable targets res).drop 3 =
          res.targets.map (fun t => scoreRow (colWidth targets) t.text t.emotion) := rfl
      rw [hdrop, List.getElem?_map, hte]
      simp only [Option.map_some', Option.some.injEq]
      simp [scoreRow, EMOTIONS, EmotionScores.lookup]
  · intro lbl hlbl
    rw [ljust_length]
    exact Nat.max_eq_right (colWidth_ge targets lbl hlbl)

/-- Witness for claim C9 at the specification's worked example: targets
`refund` and `shipping`, document scores 0.120, 0.450, 0.010, 0.005,
0.002. -/
theorem render_table_layout_witness :
    apiFix.targets.map TargetEmotion.text = tgFix ∧
    ((renderTable tgFix apiFix).length = 3 + tgFix.length ∧
    (renderTable tgFix apiFix)[0]? = some (joinSep " | "
      (ljust "item" (colWidth tgFix) ::
        [ljust "joy" 7, ljust "sadness" 7, ljust "anger" 7, ljust "fear" 7,
          ljust "disgust" 7])) ∧
    (renderTable tgFix apiFix)[2]? = some (joinSep " | "
      (ljust "document" (colWidth tgFix) ::
        ([apiFix.document.joy, apiFix.document.sadness, apiFix.document.anger,
          apiFix.document.fear, apiFix.document.disgust].map (fun q => ljust (format3 q) 7)))) ∧
    (∀ (k : Nat) (te : TargetEmotion), apiFix.targets[k]? = some te →
      tgFix[k]? = some te.text ∧
      ((renderTable tgFix apiFix).drop 3)[k]? = some (joinSep " | "
        (ljust te.text (colWidth tgFix) ::
          ([te.emotion.joy, te.emotion.sadness, te.emotion.anger, te.emotion.fear,
            te.emotion.disgust].map (fun q => ljust (format3 q) 7))))) ∧
    (∀ lbl ∈ "document" :: tgFix,
      (ljust lbl (colWidth tgFix)).length = colWidth tgFix) ∧
    (∀ x : PyFloat, ∃ ip fp, format3 x = ip ++ "." ++ fp ∧ fp.length = 3 ∧
      '.' ∉ ip.data ∧ '.' ∉ fp.data)) :=
  ⟨by decide, render_table_layout tgFix apiFix (by decide)⟩

/-- Claim C10: an invocation passing `-i ""` together with a targets file
is not rejected by the inline-text/targets-file exclusivity check (the
empty string is falsy), no input pair is loaded and no file is opened, no
remote call is made, and the run produces a batch record whose batch is
empty. -/
theorem empty_inline_text_accepted (args : Args) (env : Env) (s : String)
    (h1 : args.text = some "") (h2 : args.file = none)
    (h3 : args.targets = none) (h4 : args.targets_file = some s) :
    (∀ printed, (main args env).outcome ≠ .usageError printed) ∧
    (main args env).trace.apiCalls = [] ∧
    (main args env).trace.filesOpened = [] ∧
    outcomeRecord (main args env).outcome = some ⟨env.now, []⟩ := by
  have ht : strTruthy args.text = false := by rw [h1]; rfl
  have hf : strTruthy args.file = false := by rw [h2]; rfl
  have hload : loadInputs args env.fileContents = ([], .ok ([], [])) := by
    simp only [loadInputs, ht, hf, Bool.false_eq_true, if_false]
  have hzip : List.zip ([] : List String) ([] : List (List String)) = [] := rfl
  simp only [main, ht, hf, Bool.false_and, Bool.false_eq_true, if_false, hload, hzip,
    runBatch]
  split
  · exact ⟨fun printed hp => Outcome.noConfusion hp, rfl, rfl, rfl⟩
  · split
    · exact ⟨fun printed hp => Outcome.noConfusion hp, rfl, rfl, rfl⟩
    · exact ⟨fun printed hp => Outcome.noConfusion hp, rfl, rfl, rfl⟩

/-- Witness for claim C10 at the concrete invocation `-i "" -s tg.txt`. -/
theorem empty_inline_text_accepted_witness :
    (argsEmptyTextFix.text = some "" ∧ argsEmptyTextFix.file = none ∧
      argsEmptyTextFix.targets = none ∧ argsEmptyTextFix.targets_file = some "tg.txt") ∧
    ((∀ printed, (main argsEmptyTextFix envFix).outcome ≠ .usageError printed) ∧
      (main argsEmptyTextFix envFix).trace.apiCalls = [] ∧
      (main argsEmptyTextFix envFix).trace.filesOpened = [] ∧
      outcomeRecord (main argsEmptyTextFix envFix).outcome = some ⟨envFix.now, []⟩) :=
  ⟨⟨by decide, by decide, by decide, by decide⟩,
    empty_inline_text_accepted argsEmptyTextFix envFix "tg.txt" (by decide) (by decide)
      (by decide) (by decide)⟩

end NLU
